import Mathlib

/-!
Shallow embedding of `mikeleppane/process-viewer` (`src/server/src/main.rs`)
and proofs about it.

The server holds, per metric family (CPU, Memory):
  * a `tokio::sync::broadcast` channel of capacity 1 (the Broadcast Hub),
  * an `Arc<Mutex<_>>` slot initialised in `main` (the Latest-Value Cache).
Two `spawn_blocking` sampler loops build snapshots and `send` them to the
channels (`send(..).unwrap_or_default()`); the pull handlers `get_cpus` /
`get_memory` return a clone of the mutex contents; the websocket stream
handlers subscribe and run `while let Ok(msg) = rx.recv().await { ..
ws.send(..).unwrap_or_default() }`.

Numeric modelling: `u64` is modelled as `Nat` (no arithmetic in the source
overflows a `u64` for the claim-relevant inputs); the `f64` arithmetic of the
formatter is modelled exactly, as dyadic rationals produced by
round-to-nearest-ties-to-even at 53 significand bits, which is the IEEE-754
binary64 semantics Rust uses for `v as f64`, `/` and `format!("{:.p}")`.
The `f32` field `cpu_usage` is modelled as `Rat`; no claim computes with it.
-/

/-! ## Metric Formatter (`impl HumanReadable for u64`, main.rs lines 14-42) -/

/-- Round-to-nearest division `a / b` with ties to even, on naturals (`b > 0`).
This is the rounding used both for IEEE-754 binary64 operations and for Rust's
fixed-precision float formatting. -/
def rdivEven (a b : Nat) : Nat :=
  let q := a / b
  let r := a % b
  if 2 * r < b then q
  else if b < 2 * r then q + 1
  else if q % 2 = 0 then q else q + 1

/-- Scale the fraction `a / b` by `2 ^ k` for `k : Int`, returning a new
numerator/denominator pair. -/
def qshift (a b : Nat) (k : Int) : Nat × Nat :=
  if 0 ≤ k then (a * 2 ^ k.toNat, b) else (a, b * 2 ^ (-k).toNat)

/-- Fuel-driven helper for `bits`; structurally recursive so that it reduces
inside the kernel. -/
def bitsAux : Nat → Nat → Nat
  | 0, _ => 0
  | fuel + 1, n => if n = 0 then 0 else bitsAux fuel (n / 2) + 1

/-- Number of binary digits of `n` (`0` for `n = 0`); for `n ≥ 1` we have
`2 ^ (bits n - 1) ≤ n < 2 ^ (bits n)`. -/
def bits (n : Nat) : Nat := bitsAux n n

/-- IEEE-754 binary64 value nearest to the positive rational `a / b`
(round to nearest, ties to even), returned as a significand/exponent pair
`(m, e)` with value `m * 2 ^ e` and `2 ^ 52 ≤ m < 2 ^ 53`.  All values the
formatter produces are in `[1, 2 ^ 64)`, far from overflow and subnormals,
so normalised results are the only case. -/
def f64OfRat (a b : Nat) : Nat × Int :=
  let t0 : Int := (bits a : Int) - (bits b : Int)
  let u := qshift a b (-t0)
  let t : Int := if u.1 < u.2 then t0 - 1 else t0
  let w := qshift a b (52 - t)
  let m := rdivEven w.1 w.2
  if m = 2 ^ 53 then (2 ^ 52, t - 51) else (m, t - 52)

/-- Rust's `v as f64` cast of a `u64` (round to nearest, ties to even). -/
def f64OfNat (v : Nat) : Nat × Int := f64OfRat v 1

/-- IEEE-754 binary64 division of the float `x` by the natural `d`
(`1000`, `1_000_000` or `1_000_000_000` here, each exactly representable),
i.e. the correctly rounded true quotient. -/
def f64Div (x : Nat × Int) (d : Nat) : Nat × Int :=
  let s := qshift x.1 d x.2
  f64OfRat s.1 s.2

/-- Rust's `format!("{:.*}", p, x)` for a positive binary64 value `x`:
the exact decimal expansion of the binary value, rounded at `p` fractional
digits with ties to even; `p = 0` prints no decimal point. -/
def fmtF64 (x : Nat × Int) (p : Nat) : String :=
  let s := qshift (x.1 * 10 ^ p) 1 x.2
  let n := rdivEven s.1 s.2
  if p = 0 then toString n
  else
    let ip := n / 10 ^ p
    let fp := n % 10 ^ p
    let fs := toString fp
    toString ip ++ "." ++ String.mk (List.replicate (p - fs.length) '0') ++ fs

/-- Default of the `Option<u8>` precision argument: `Some(p)` is `p`,
`None` is `2` (main.rs lines 20-24). -/
def precOf : Option Nat → Nat
  | some p => p
  | none => 2

/-- The formatter `HumanReadable::to_human` (main.rs lines 18-42): match on
the `u64` value with inclusive range patterns `0..=999`, `1000..=999_999`,
`1_000_000..=999_999_999`, `1_000_000_000..`; the scaled value is computed
as `self as f64 / 1000f64` (resp. `1_000_000f64`, `1_000_000_000f64`) and
formatted with `format!("{:.*} KB", precision as usize, ..)`. -/
def to_human (v : Nat) (precision : Option Nat) : String :=
  if v ≤ 999 then toString v
  else if v ≤ 999999 then fmtF64 (f64Div (f64OfNat v) 1000) (precOf precision) ++ " KB"
  else if v ≤ 999999999 then fmtF64 (f64Div (f64OfNat v) 1000000) (precOf precision) ++ " MB"
  else fmtF64 (f64Div (f64OfNat v) 1000000000) (precOf precision) ++ " GB"

/-! ## Data model (main.rs lines 117-139) -/

/-- One logical core's snapshot (`struct CpuInfo`, main.rs lines 125-131);
the `f32` usage percentage is modelled as a rational since no claim computes
with it. -/
structure CpuInfo where
  cpu_usage : Rat
  frequency : Nat
  vendor_id : String
  brand : String
deriving DecidableEq

/-- Memory snapshot of pre-formatted magnitude strings
(`struct Memory`, main.rs lines 133-139). -/
structure Memory where
  total_memory : String
  used_memory : String
  total_swap : String
  used_swap : String
deriving DecidableEq

/-- Rust `Memory::default()` (`#[derive(Default)]`): four empty strings. -/
def Memory.default : Memory :=
  { total_memory := "", used_memory := "", total_swap := "", used_swap := "" }







/-! ## Broadcast Hub (`tokio::sync::broadcast`, capacity 1 in `main`)

A channel is modelled by its capacity, the ordered log of all messages ever
successfully sent, and the number of live receivers.  A receiver is a
position into the log (its next message).  Semantics of `tokio`'s broadcast
channel as used by this program:
  * `send` fails (returning the message) when there are no receivers, and
    otherwise appends to the log; older entries beyond `capacity` are
    overwritten, which we record through `chRecv`'s lag rule rather than by
    erasing the log;
  * `recv` at position `pos`: pending when `pos` is at the end of the log;
    a `Lagged` error when more than `capacity` messages are ahead of `pos`
    (the receiver's position then jumps to the oldest retained message,
    `log.length - capacity`); otherwise the message at `pos` is returned and
    the position advances by one.  The `Closed` error cannot occur in this
    program: the sampler loops own the senders forever. -/

structure Channel (α : Type) where
  capacity : Nat
  log : List α
  nreceivers : Nat
deriving DecidableEq

/-- Result of one `rx.recv().await` on a broadcast receiver. -/
inductive RecvResult (α : Type) where
  | pending : RecvResult α
  | lagged (newPos : Nat) : RecvResult α
  | item (m : α) (newPos : Nat) : RecvResult α
deriving DecidableEq

/-- One `recv` on a capacity-`cap` channel whose log is `log`, by a receiver
at position `pos`. -/
def chRecv {α : Type} (cap : Nat) (log : List α) (pos : Nat) : RecvResult α :=
  if h : log.length ≤ pos then .pending
  else if cap < log.length - pos then .lagged (log.length - cap)
  else .item (log.get ⟨pos, by omega⟩) (pos + 1)

/-- Error of `broadcast::Sender::send`: no active receivers. -/
inductive SendErr where
  | noReceivers
deriving DecidableEq

/-- `tx.send(m)`: fails if and only if there are currently no receivers
(the message is then dropped); otherwise the message is appended. -/
def chSend {α : Type} (c : Channel α) (m : α) : Except SendErr (Channel α) :=
  if c.nreceivers = 0 then .error .noReceivers
  else .ok { c with log := c.log ++ [m] }

/-- `tx.send(m).unwrap_or_default()`: the send error is discarded and the
channel is left unchanged on failure (main.rs lines 94 and 111). -/
def chSendOrDefault {α : Type} (c : Channel α) (m : α) : Channel α :=
  match chSend c m with
  | .ok c' => c'
  | .error _ => c

/-- `tx.subscribe()`: registers one more receiver and hands back its start
position, the current end of the log; the log and every other receiver are
untouched. -/
def subscribeCh {α : Type} (c : Channel α) : Channel α × Nat :=
  ({ c with nreceivers := c.nreceivers + 1 }, c.log.length)

/-- Dropping a receiver (stream loop ending): one fewer receiver. -/
def dropSub {α : Type} (c : Channel α) : Channel α :=
  { c with nreceivers := c.nreceivers - 1 }

/-! ## Application state and sampler cycles (main.rs lines 59-115) -/

/-- `struct AppState` (main.rs lines 117-123): the two broadcast senders and
the two `Arc<Mutex<_>>` Latest-Value Cache slots, whose contents we model
directly. -/
structure AppState where
  tx_cpu : Channel (List CpuInfo)
  tx_memory : Channel Memory
  cpu_info : List CpuInfo
  memory : Memory
deriving DecidableEq

/-- The state built in `main` (main.rs lines 61-68): capacity-1 channels with
no subscribers yet, an empty CPU list and a default memory snapshot in the
cache slots. -/
def initState : AppState :=
  { tx_cpu := { capacity := 1, log := [], nreceivers := 0 }
    tx_memory := { capacity := 1, log := [], nreceivers := 0 }
    cpu_info := []
    memory := Memory.default }

/-- One cycle of `start_cpu_info_task`'s loop (main.rs lines 82-96): refresh
the OS source, build the snapshot (`snap`, an input of the cycle since it
comes from the OS), `tx_cpu.send(..).unwrap_or_default()`, sleep.  The cycle
touches nothing else in `AppState`; in particular it never writes
`cpu_info`. -/
def cpuCycle (s : AppState) (snap : List CpuInfo) : AppState :=
  { s with tx_cpu := chSendOrDefault s.tx_cpu snap }

/-- The memory snapshot built by one cycle of
`start_memory_data_collection_task` (main.rs lines 105-110) from the raw OS
readings, each formatted with `to_human(None)`. -/
def buildMemory (total used totalSwap usedSwap : Nat) : Memory :=
  { total_memory := to_human total none
    used_memory := to_human used none
    total_swap := to_human totalSwap none
    used_swap := to_human usedSwap none }

/-- One cycle of `start_memory_data_collection_task`'s loop (main.rs lines
103-113): build the snapshot from the raw readings and
`tx_memory.send(..).unwrap_or_default()`.  Nothing else in `AppState` is
touched; in particular `memory` is never written. -/
def memoryCycle (s : AppState) (total used totalSwap usedSwap : Nat) : AppState :=
  { s with tx_memory := chSendOrDefault s.tx_memory (buildMemory total used totalSwap usedSwap) }

/-- Iterated CPU sampler loop: one cycle per OS reading in `snaps`. -/
def cpuRun (s : AppState) (snaps : List (List CpuInfo)) : AppState :=
  snaps.foldl cpuCycle s

/-- Iterated memory sampler loop: one cycle per quadruple of raw readings. -/
def memRun (s : AppState) (reads : List (Nat × Nat × Nat × Nat)) : AppState :=
  reads.foldl (fun st r => memoryCycle st r.1 r.2.1 r.2.2.1 r.2.2.2) s

/-- Pull handler `get_cpus` (main.rs lines 142-145):
`state.cpu_info.lock().unwrap().clone()`.  The `unwrap` is on mutex
poisoning, which cannot occur: no code path panics while holding the lock;
the handler is total and returns an owned copy of the cache slot. -/
def get_cpus (s : AppState) : List CpuInfo := s.cpu_info

/-- Pull handler `get_memory` (main.rs lines 148-151):
`state.memory.lock().unwrap().clone()`; total, returns the cache slot. -/
def get_memory (s : AppState) : Memory := s.memory

/-- Every state-mutating operation the program performs on `AppState` after
`main` builds it: a CPU or memory sampling cycle, a stream handler
subscribing to either hub, or a stream loop ending and dropping its
receiver.  Pull handlers and `recv` read but do not mutate `AppState`. -/
inductive Step : AppState → AppState → Prop where
  | cpu (s : AppState) (snap : List CpuInfo) : Step s (cpuCycle s snap)
  | mem (s : AppState) (t u ts us : Nat) : Step s (memoryCycle s t u ts us)
  | subCpu (s : AppState) : Step s { s with tx_cpu := (subscribeCh s.tx_cpu).1 }
  | subMem (s : AppState) : Step s { s with tx_memory := (subscribeCh s.tx_memory).1 }
  | dropCpu (s : AppState) : Step s { s with tx_cpu := dropSub s.tx_cpu }
  | dropMem (s : AppState) : Step s { s with tx_memory := dropSub s.tx_memory }

/-- States the program can reach from the state `main` builds. -/
def Reachable (s : AppState) : Prop :=
  Relation.ReflTransGen Step initState s

/-! ## Stream Service loop (main.rs lines 166-172 and 182-188)

` let mut rx = app_state.tx_cpu.subscribe();
  while let Ok(msg) = rx.recv().await {
      let payload = serde_json::to_string(&msg).unwrap();
      ws.send(Message::Text(payload)).await.unwrap_or_default();
  } `

One websocket connection is modelled as a small-step system driven by an
event trace: `pub m` is the sampler publishing `m` to the hub, and `step` is
the loop completing one `recv` (plus the send that follows when a message
arrives).  Serialization (`serde_json::to_string(..).unwrap()`, total on
these derived-`Serialize` types) is abstracted: `sent` records the message
and the delivery outcome.  The environment decides each delivery outcome via
`sendOk` (indexed by the running count of attempts); the loop discards it
(`unwrap_or_default`).  The model covers the scenario in which this
connection is the hub's only subscriber, so a publish after the loop has
died finds no receiver and is dropped. -/

/-- Events driving one stream connection. -/
inductive Ev (α : Type) where
  | pub (m : α)
  | step
deriving DecidableEq

/-- State of one stream connection: the hub log it sees, its receiver
position, whether the `while let Ok` loop is still running, the deliveries
attempted so far (message and outcome), and the attempt count. -/
structure Conn (α : Type) where
  log : List α
  pos : Nat
  alive : Bool
  sent : List (α × Bool)
  attempts : Nat
deriving DecidableEq

/-- Connection state right after `subscribe()` when the hub log is `L`:
position at the end of the log, loop running, nothing sent. -/
def connSub {α : Type} (L : List α) : Conn α :=
  { log := L, pos := L.length, alive := true, sent := [], attempts := 0 }

/-- Connection state for a subscriber created before anything was
published. -/
def connStart {α : Type} : Conn α := connSub []

/-- Run one stream connection over an event trace.  `pub` appends to the hub
log (dropped if the loop — the only receiver — is gone); `step` is one
`rx.recv().await`: on `pending` nothing happens yet, on a `Lagged` error the
`while let Ok` loop exits, and on a message the loop sends it over the
websocket, discards the outcome, and continues. -/
def wsRun {α : Type} (cap : Nat) (sendOk : Nat → Bool) : List (Ev α) → Conn α → Conn α
  | [], s => s
  | .pub m :: evs, s =>
      wsRun cap sendOk evs (if s.alive then { s with log := s.log ++ [m] } else s)
  | .step :: evs, s =>
      if s.alive then
        match chRecv cap s.log s.pos with
        | .pending => wsRun cap sendOk evs s
        | .lagged p' => wsRun cap sendOk evs { s with pos := p', alive := false }
        | .item m p' =>
            wsRun cap sendOk evs
              { s with pos := p'
                       sent := s.sent ++ [(m, sendOk s.attempts)]
                       attempts := s.attempts + 1 }
      else wsRun cap sendOk evs s

/-- Observable agreement between two connection states: everything except
the recorded delivery outcomes. -/
def ConnAgree {α : Type} (s t : Conn α) : Prop :=
  s.log = t.log ∧ s.pos = t.pos ∧ s.alive = t.alive ∧
    s.attempts = t.attempts ∧ s.sent.map Prod.fst = t.sent.map Prod.fst

/-! ## Startup and address parsing (main.rs lines 44-47 and 71-72) -/

/-- `DEFAULT_PORT` (main.rs line 12). -/
def DEFAULT_PORT : Nat := 7070

/-- `get_address` (main.rs lines 44-47): `env::var("PORT")` (modelled as an
optional string; an unset or non-unicode variable yields the default) with
`unwrap_or(DEFAULT_PORT.to_string())`, assembled as `"0.0.0.0:<port>"`. -/
def get_address (portEnv : Option String) : String :=
  "0.0.0.0:" ++ (match portEnv with | some p => p | none => toString DEFAULT_PORT)

/-- Decimal value of a digit character, `none` for a non-digit. -/
def digitVal? (c : Char) : Option Nat :=
  if c.isDigit then some (c.toNat - 48) else none

/-- Accumulating decimal reader over characters; fails on any non-digit. -/
def decToNatAux : List Char → Nat → Option Nat
  | [], acc => some acc
  | c :: cs, acc =>
      match digitVal? c with
      | some d => decToNatAux cs (acc * 10 + d)
      | none => none

/-- Decimal value of a string: `none` when empty or containing a
non-digit. -/
def decToNat? (s : String) : Option Nat :=
  match s.data with
  | [] => none
  | l => decToNatAux l 0

/-- Modelled from Rust's standard library (`SocketAddr: FromStr`, an
external collaborator of this crate): the port part of a socket address
parses exactly when it is a non-empty run of decimal digits whose value
fits in a `u16`. -/
def parsePort (s : String) : Option Nat :=
  match decToNat? s with
  | some n => if n < 65536 then some n else none
  | none => none

/-- Modelled from Rust's standard library: parsing `"<host>:<port>"` as a
`SocketAddr` for the only host this program ever assembles, `0.0.0.0`
(a valid IPv4 literal); the whole string parses exactly when what follows
`"0.0.0.0:"` is a valid port. -/
def parseAddr (s : String) : Option Nat :=
  match s.data with
  | '0' :: '.' :: '0' :: '.' :: '0' :: '.' :: '0' :: ':' :: rest =>
      parsePort (String.mk rest)
  | _ => none

/-- Outcome of process startup at the bind expression (main.rs line 71). -/
inductive StartupResult where
  | listening (port : Nat)
  | panicked (msg : String)
deriving DecidableEq

/-- `Server::bind(&get_address().parse().expect("Invalid host given"))`
(main.rs lines 71-72): if the assembled address fails to parse the process
panics immediately with `Invalid host given`; otherwise it proceeds to
listen on the parsed port. -/
def startup (portEnv : Option String) : StartupResult :=
  match parseAddr (get_address portEnv) with
  | some p => .listening p
  | none => .panicked "Invalid host given"

/-- Concrete core snapshot used by witnesses and counterexamples. -/
def c0 : CpuInfo :=
  { cpu_usage := (25 : Rat), frequency := 2400, vendor_id := "GenuineIntel", brand := "Intel" }

/-! ## Helper lemmas -/

/-- Dropping `d` from a longer prefix of `l` keeps the shorter prefix's drop
as a sublist. -/
theorem take_drop_mono {α : Type} (l : List α) (d p q : Nat) (hpq : p ≤ q) :
    ((l.take p).drop d).Sublist ((l.take q).drop d) := by
  have h1 : l.take p ++ (l.take q).drop p = l.take q := by
    have h2 := List.take_append_drop p (l.take q)
    rwa [List.take_take, Nat.min_eq_left hpq] at h2
  have h2 : ((l.take p).drop d).Sublist ((l.take p ++ (l.take q).drop p).drop d) := by
    rw [List.drop_append_eq_append_drop]
    exact List.sublist_append_left _ _
  rwa [h1] at h2

/-- A dead stream loop is inert: with its receiver gone, publishes are
dropped and steps do nothing. -/
theorem wsRun_dead {α : Type} (cap : Nat) (f : Nat → Bool) (evs : List (Ev α))
    (s : Conn α) (h : s.alive = false) : wsRun cap f evs s = s := by
  induction evs with
  | nil => rfl
  | cons e evs ih =>
      cases e with
      | pub m => simp only [wsRun, h, Bool.false_eq_true, if_false]; exact ih
      | step => simp only [wsRun, h, Bool.false_eq_true, if_false]; exact ih

/-- Invariant of the stream loop: the delivered messages always form a
sublist of the log segment strictly after position `d` and before the
current receiver position, and the position stays between `d` and the log
length.  Instantiated with `d = 0` this gives in-order, duplication-free
delivery; with `d` = subscription point it shows no pre-subscription message
is ever delivered. -/
theorem wsRun_sent_inv {α : Type} (cap : Nat) (f : Nat → Bool) (evs : List (Ev α)) :
    ∀ (s : Conn α) (d : Nat), d ≤ s.pos → s.pos ≤ s.log.length →
      (s.sent.map Prod.fst).Sublist ((s.log.take s.pos).drop d) →
      ((wsRun cap f evs s).sent.map Prod.fst).Sublist
          (((wsRun cap f evs s).log.take (wsRun cap f evs s).pos).drop d) ∧
        d ≤ (wsRun cap f evs s).pos ∧
        (wsRun cap f evs s).pos ≤ (wsRun cap f evs s).log.length := by
  induction evs with
  | nil => exact fun s d h1 h2 h3 => ⟨h3, h1, h2⟩
  | cons e evs ih =>
      intro s d h1 h2 h3
      cases e with
      | pub m =>
          by_cases hA : s.alive = true
          · simp only [wsRun, hA, if_true]
            apply ih
            · exact h1
            · simpa using Nat.le_succ_of_le h2
            · simpa [List.take_append_of_le_length h2] using h3
          · simp only [wsRun, hA, if_false]
            exact ih s d h1 h2 h3
      | step =>
          by_cases hA : s.alive = true
          · by_cases hp : s.log.length ≤ s.pos
            · simp only [wsRun, hA, if_true, chRecv, dif_pos hp]
              exact ih s d h1 h2 h3
            · by_cases hl : cap < s.log.length - s.pos
              · simp only [wsRun, hA, if_true, chRecv, dif_neg hp, if_pos hl]
                apply ih
                · simp only []
                  omega
                · simp only []
                  omega
                · refine h3.trans ?_
                  exact take_drop_mono _ d s.pos (s.log.length - cap) (by omega)
              · simp only [wsRun, hA, if_true, chRecv, dif_neg hp, if_neg hl]
                apply ih
                · simp only []
                  omega
                · simp only []
                  omega
                · simp only [List.map_append]
                  have hlt : s.pos < s.log.length := by omega
                  have htake : s.log.take (s.pos + 1)
                      = s.log.take s.pos ++ [s.log.get ⟨s.pos, hlt⟩] := by
                    rw [List.take_succ]
                    congr 1
                    simp [List.getElem?_eq_getElem hlt]
                  rw [htake, List.drop_append_eq_append_drop]
                  have hd : d - (s.log.take s.pos).length = 0 := by
                    simp only [List.length_take]
                    omega
                  rw [hd, List.drop_zero]
                  exact h3.append (List.Sublist.refl _)
          · simp only [wsRun, hA, if_false]
            exact ih s d h1 h2 h3

/-- Assembled addresses parse through the port: what follows `"0.0.0.0:"`
is handed to the port parser. -/
theorem parseAddr_assembled (s : String) : parseAddr ("0.0.0.0:" ++ s) = parsePort s := by
  obtain ⟨d⟩ := s
  rfl

/-! ## Claims -/

/-- Claim C4: `to_human` picks its tier by value — `[0, 1000)` the plain
integer string, `[1000, 10^6)` the binary64 quotient by `1000` at `p`
decimals with suffix `" KB"`, `[10^6, 10^9)` by `10^6` with `" MB"`,
`[10^9, ∞)` by `10^9` with `" GB"` — an omitted precision defaults to `2`,
and on the spec's examples it returns `"0"`, `"999"`, `"1.00 KB"`,
`"1.50 MB"`, `"2.50 GB"` and `"1 KB"`. -/
theorem C4_to_human_tiers :
    (∀ v, to_human v none = to_human v (some 2)) ∧
    (∀ v p, v < 1000 → to_human v (some p) = toString v) ∧
    (∀ v p, 1000 ≤ v → v < 1000000 →
      to_human v (some p) = fmtF64 (f64Div (f64OfNat v) 1000) p ++ " KB") ∧
    (∀ v p, 1000000 ≤ v → v < 1000000000 →
      to_human v (some p) = fmtF64 (f64Div (f64OfNat v) 1000000) p ++ " MB") ∧
    (∀ v p, 1000000000 ≤ v →
      to_human v (some p) = fmtF64 (f64Div (f64OfNat v) 1000000000) p ++ " GB") ∧
    to_human 0 none = "0" ∧ to_human 999 none = "999" ∧
    to_human 1000 none = "1.00 KB" ∧ to_human 1500000 none = "1.50 MB" ∧
    to_human 2500000000 none = "2.50 GB" ∧ to_human 1000 (some 0) = "1 KB" := by
  refine ⟨fun v => rfl, ?_, ?_, ?_, ?_, ?_, ?_, ?_, ?_, ?_, ?_⟩
  · intro v p h
    simp only [to_human]
    rw [if_pos (by omega)]
  · intro v p h1 h2
    simp only [to_human, precOf]
    rw [if_neg (by omega), if_pos (by omega)]
  · intro v p h1 h2
    simp only [to_human, precOf]
    rw [if_neg (by omega), if_neg (by omega), if_pos (by omega)]
  · intro v p h1
    simp only [to_human, precOf]
    rw [if_neg (by omega), if_neg (by omega), if_neg (by omega)]
  · rfl
  · rfl
  · rfl
  · rfl
  · rfl
  · rfl

/-- Witness for C4: each guarded tier equation applied at a concrete
value and precision. -/
theorem C4_to_human_tiers_witness :
    to_human 5 (some 3) = toString 5 ∧
    to_human 1234 (some 3) = fmtF64 (f64Div (f64OfNat 1234) 1000) 3 ++ " KB" ∧
    to_human 2000000 (some 1) = fmtF64 (f64Div (f64OfNat 2000000) 1000000) 1 ++ " MB" ∧
    to_human 3000000000 (some 2) = fmtF64 (f64Div (f64OfNat 3000000000) 1000000000) 2 ++ " GB" :=
  ⟨C4_to_human_tiers.2.1 5 3 (by decide),
   C4_to_human_tiers.2.2.1 1234 3 (by decide) (by decide),
   C4_to_human_tiers.2.2.2.1 2000000 1 (by decide) (by decide),
   C4_to_human_tiers.2.2.2.2.1 3000000000 2 (by decide)⟩

/-- Claim C1 fails on the code (evaluated at the failing input): a CPU
sampling cycle publishes its snapshot to the Broadcast Hub but never writes
the Latest-Value Cache slot.  From `main`'s state with one subscriber, one
cycle with snapshot `[c0]` leaves `[[c0]]` in the hub log while the cache
still holds the startup empty list — not the payload of the most recently
completed cycle. -/
theorem C1_cycle_skips_cache :
    (cpuCycle { initState with tx_cpu := (subscribeCh initState.tx_cpu).1 } [c0]).tx_cpu.log
        = [[c0]] ∧
    get_cpus (cpuCycle { initState with tx_cpu := (subscribeCh initState.tx_cpu).1 } [c0])
        = [] ∧
    ([] : List CpuInfo) ≠ [c0] :=
  ⟨rfl, rfl, nofun⟩

/-- Claim C5 fails on the code (evaluated at the failing input): after a
completed memory sampling cycle over concrete host readings the cycle has
built and broadcast a fully formatted snapshot, yet the pull query still
returns the zeroed default, because the sampler never writes the cache
slot. -/
theorem C5_pull_stays_default :
    get_memory (memoryCycle { initState with tx_memory := (subscribeCh initState.tx_memory).1 }
        8000000000 4000000000 2000000000 0) = Memory.default ∧
    (memoryCycle { initState with tx_memory := (subscribeCh initState.tx_memory).1 }
        8000000000 4000000000 2000000000 0).tx_memory.log
        = [buildMemory 8000000000 4000000000 2000000000 0] ∧
    (buildMemory 8000000000 4000000000 2000000000 0).total_memory = "8.00 GB" ∧
    Memory.default.total_memory = "" ∧
    buildMemory 8000000000 4000000000 2000000000 0 ≠ Memory.default :=
  ⟨rfl, rfl, by decide, rfl, by decide⟩

/-- Claim C7: the pull handlers surface no error — they are total functions
of the state — and return exactly the currently cached value as an owned
copy; the cache slots exist from startup on, holding the defaults (empty
core list, zeroed memory snapshot) before the first sample, never absent. -/
theorem C7_pull_total :
    (∀ s : AppState, get_cpus s = s.cpu_info ∧ get_memory s = s.memory) ∧
    get_cpus initState = [] ∧ get_memory initState = Memory.default :=
  ⟨fun _ => ⟨rfl, rfl⟩, rfl, rfl⟩

/-- Claim C10: no reachable program state ever mutates the cache slots
after `main` initialises them — sampling cycles, subscriptions and receiver
drops all leave `cpu_info` and `memory` untouched — so every CPU pull
returns the empty list and every memory pull the all-empty-strings default,
however many cycles have completed. -/
theorem C10_cache_never_mutated :
    ∀ s : AppState, Reachable s → get_cpus s = [] ∧ get_memory s = Memory.default := by
  intro s h
  induction h with
  | refl => exact ⟨rfl, rfl⟩
  | tail _ hstep ih =>
      cases hstep with
      | cpu _ => exact ih
      | mem _ _ _ _ => exact ih
      | subCpu => exact ih
      | subMem => exact ih
      | dropCpu => exact ih
      | dropMem => exact ih

/-- Witness for C10: a concrete reachable state — subscribe, then one CPU
cycle — still shows the startup cache contents. -/
theorem C10_cache_never_mutated_witness :
    get_cpus (cpuCycle { initState with tx_cpu := (subscribeCh initState.tx_cpu).1 } [c0]) = [] ∧
    get_memory (cpuCycle { initState with tx_cpu := (subscribeCh initState.tx_cpu).1 } [c0])
      = Memory.default :=
  C10_cache_never_mutated _
    (Relation.ReflTransGen.tail (Relation.ReflTransGen.single (Step.subCpu initState))
      (Step.cpu _ [c0]))

/-- Claim C2 is false of the code (counterexample):
`ws.send(..).unwrap_or_default()` discards the delivery outcome, so after a
failed delivery the loop is still alive and attempts further sends.  With
every delivery failing, two publishes lead to two attempted sends — the
second after the first has already failed — and the loop is still
running. -/
theorem C2_counterexample :
    (wsRun 1 (fun _ => false) [.pub [c0], .step, .pub [], .step]
        (connStart : Conn (List CpuInfo))).sent
      = [([c0], false), ([], false)] ∧
    (wsRun 1 (fun _ => false) [.pub [c0], .step, .pub [], .step]
        (connStart : Conn (List CpuInfo))).alive = true :=
  ⟨rfl, rfl⟩

/-- Claim C2 amended: a failed delivery is ignored, not retried, and does
not terminate the loop — the hub log, receiver position, liveness, attempt
count and the sequence of messages attempted are identical whatever the
delivery outcomes are; only `recv` failing ends the loop. -/
theorem C2_amended {α : Type} (cap : Nat) (f g : Nat → Bool)
    (evs : List (Ev α)) (s t : Conn α) (h : ConnAgree s t) :
    ConnAgree (wsRun cap f evs s) (wsRun cap g evs t) := by
  induction evs generalizing s t with
  | nil => exact h
  | cons e evs ih =>
      obtain ⟨h1, h2, h3, h4, h5⟩ := h
      cases e with
      | pub m =>
          simp only [wsRun, h3]
          by_cases hA : t.alive = true
          · simp only [hA, if_true]
            exact ih _ _ (by simp [ConnAgree, h1, h2, h3, h4, h5])
          · simp only [hA, if_false]
            exact ih _ _ ⟨h1, h2, h3, h4, h5⟩
      | step =>
          simp only [wsRun, h1, h2, h3]
          by_cases hA : t.alive = true
          · simp only [hA, if_true]
            rcases hR : chRecv cap t.log t.pos with _ | p' | ⟨m, p'⟩
            · exact ih _ _ ⟨h1, h2, h3, h4, h5⟩
            · exact ih _ _ (by simp [ConnAgree, h4, h5])
            · exact ih _ _ (by simp [ConnAgree, h4, h5, List.map_append])
          · simp only [hA, if_false]
            exact ih _ _ ⟨h1, h2, h3, h4, h5⟩

/-- Witness for C2's amended theorem: the same trace run with all
deliveries failing and with all succeeding agrees observably. -/
theorem C2_amended_witness :
    ConnAgree
      (wsRun 1 (fun _ => false) [.pub [c0], .step] (connStart : Conn (List CpuInfo)))
      (wsRun 1 (fun _ => true) [.pub [c0], .step] (connStart : Conn (List CpuInfo))) :=
  C2_amended 1 (fun _ => false) (fun _ => true) [.pub [c0], .step] connStart connStart
    ⟨rfl, rfl, rfl, rfl, rfl⟩

/-- Claim C3 is false of the code (counterexample): on the capacity-1 hub,
a subscriber created before two publishes receives a `Lagged` error from
`recv`, and `while let Ok` treats it as terminal — the loop dies having
delivered nothing, so the second message, published after the subscription,
is never received; the loop terminated precisely because messages were
dropped, not because the peer vanished. -/
theorem C3_counterexample :
    (wsRun 1 (fun _ => true) [.pub [c0], .pub [], .step, .step]
        (connStart : Conn (List CpuInfo))).sent = [] ∧
    (wsRun 1 (fun _ => true) [.pub [c0], .pub [], .step, .step]
        (connStart : Conn (List CpuInfo))).alive = false ∧
    chRecv 1 ([[c0], []] : List (List CpuInfo)) 0 = .lagged 1 :=
  ⟨rfl, rfl, rfl⟩

/-- Claim C3 amended: each subscriber's delivered messages form an
order-preserving, duplication-free selection of the published log (publish
order, never reordered, never duplicated); but a subscriber that falls more
than the channel capacity behind does not merely skip the gap and continue:
its `recv` returns a lag error, the `while let Ok` loop exits, and a dead
loop never delivers anything again — so a message published before the lag
was noticed may never be received. -/
theorem C3_amended :
    (∀ (α : Type) (cap : Nat) (f : Nat → Bool) (evs : List (Ev α)) (L : List α),
      ((wsRun cap f evs (connSub L)).sent.map Prod.fst).Sublist
        (wsRun cap f evs (connSub L)).log) ∧
    (∀ (α : Type) (cap : Nat) (f : Nat → Bool) (evs : List (Ev α)) (s : Conn α),
      s.alive = true → cap < s.log.length - s.pos →
      wsRun cap f (.step :: evs) s
        = wsRun cap f evs { s with pos := s.log.length - cap, alive := false }) ∧
    (∀ (α : Type) (cap : Nat) (f : Nat → Bool) (evs : List (Ev α)) (s : Conn α),
      s.alive = false → wsRun cap f evs s = s) := by
  refine ⟨?_, ?_, ?_⟩
  · intro α cap f evs L
    have h := wsRun_sent_inv cap f evs (connSub L) 0 (Nat.zero_le _) (Nat.le_refl _)
      (by simp [connSub])
    refine (h.1.trans ?_)
    rw [List.drop_zero]
    exact List.take_sublist _ _
  · intro α cap f evs s hA hl
    have hp : ¬ s.log.length ≤ s.pos := by omega
    simp only [wsRun, hA, if_true, chRecv, dif_neg hp, if_pos hl]
  · intro α cap f evs s h
    exact wsRun_dead cap f evs s h

/-- Witness for C3's amended theorem: a lagged `recv` on a concrete
connection kills the loop, and a dead connection is inert. -/
theorem C3_amended_witness :
    wsRun 1 (fun _ => true) [Ev.step] (⟨[5, 6], 0, true, [], 0⟩ : Conn Nat)
        = wsRun 1 (fun _ => true) [] (⟨[5, 6], 1, false, [], 0⟩ : Conn Nat) ∧
    wsRun 1 (fun _ => true) [Ev.step, Ev.pub 7] (⟨[5, 6], 1, false, [], 0⟩ : Conn Nat)
        = (⟨[5, 6], 1, false, [], 0⟩ : Conn Nat) :=
  ⟨C3_amended.2.1 Nat 1 (fun _ => true) [] (⟨[5, 6], 0, true, [], 0⟩ : Conn Nat)
      rfl (by decide),
   C3_amended.2.2 Nat 1 (fun _ => true) [Ev.step, Ev.pub 7]
      (⟨[5, 6], 1, false, [], 0⟩ : Conn Nat) rfl⟩

/-- Claim C6: publishing with zero subscribers is harmless for the sampler:
the `send` returns a no-receivers error, `unwrap_or_default` discards it,
the state is left unchanged, and — the cycle being a total function — the
loop neither panics nor blocks nor terminates: any number of further cycles
proceed unconditionally, for both samplers. -/
theorem C6_publish_no_subscribers (s : AppState)
    (hc : s.tx_cpu.nreceivers = 0) (hm : s.tx_memory.nreceivers = 0) :
    (∀ snap, chSend s.tx_cpu snap = .error .noReceivers) ∧
    (∀ ms, chSend s.tx_memory ms = .error .noReceivers) ∧
    (∀ snap, cpuCycle s snap = s) ∧
    (∀ t u ts us, memoryCycle s t u ts us = s) ∧
    (∀ snaps, cpuRun s snaps = s) ∧
    (∀ reads, memRun s reads = s) := by
  have h1 : ∀ snap, chSend s.tx_cpu snap = .error .noReceivers := by
    intro snap; simp [chSend, hc]
  have h1m : ∀ ms, chSend s.tx_memory ms = .error .noReceivers := by
    intro ms; simp [chSend, hm]
  have h2 : ∀ snap, cpuCycle s snap = s := by
    intro snap; simp [cpuCycle, chSendOrDefault, h1]
  have h2m : ∀ t u ts us, memoryCycle s t u ts us = s := by
    intro t u ts us; simp [memoryCycle, chSendOrDefault, h1m]
  refine ⟨h1, h1m, h2, h2m, ?_, ?_⟩
  · intro snaps
    induction snaps with
    | nil => rfl
    | cons a l ih =>
        simp only [cpuRun, List.foldl_cons, h2 a]
        simpa [cpuRun] using ih
  · intro reads
    induction reads with
    | nil => rfl
    | cons a l ih =>
        simp only [memRun, List.foldl_cons, h2m a.1 a.2.1 a.2.2.1 a.2.2.2]
        simpa [memRun] using ih

/-- Witness for C6: from `main`'s state — no subscriber yet — a concrete
send errs, and two CPU cycles plus one memory cycle all proceed, leaving
the state unchanged. -/
theorem C6_publish_no_subscribers_witness :
    chSend initState.tx_cpu [c0] = .error .noReceivers ∧
    cpuRun initState [[c0], []] = initState ∧
    memRun initState [(8000000000, 4000000000, 2000000000, 0)] = initState :=
  ⟨(C6_publish_no_subscribers initState rfl rfl).1 [c0],
   (C6_publish_no_subscribers initState rfl rfl).2.2.2.2.1 [[c0], []],
   (C6_publish_no_subscribers initState rfl rfl).2.2.2.2.2
     [(8000000000, 4000000000, 2000000000, 0)]⟩

/-- Claim C8: `subscribe` hands back a position at the current end of the
log without touching the log, the capacity or any other receiver's `recv`
results; and every message a subscriber's loop ever delivers lies in the
part of the log published at or after its subscription point — a message
published before the subscription is never received. -/
theorem C8_no_retroactive_delivery :
    (∀ (α : Type) (c : Channel α),
      (subscribeCh c).2 = c.log.length ∧
      (subscribeCh c).1.log = c.log ∧
      (subscribeCh c).1.capacity = c.capacity ∧
      (∀ pos, chRecv (subscribeCh c).1.capacity (subscribeCh c).1.log pos
          = chRecv c.capacity c.log pos)) ∧
    (∀ (α : Type) (cap : Nat) (f : Nat → Bool) (evs : List (Ev α)) (L : List α),
      ((wsRun cap f evs (connSub L)).sent.map Prod.fst).Sublist
        ((wsRun cap f evs (connSub L)).log.drop L.length)) := by
  refine ⟨fun α c => ⟨rfl, rfl, rfl, fun pos => rfl⟩, ?_⟩
  intro α cap f evs L
  have h := wsRun_sent_inv cap f evs (connSub L) L.length (Nat.le_refl _) (Nat.le_refl _)
    (by simp [connSub])
  refine h.1.trans ?_
  have h2 := take_drop_mono (wsRun cap f evs (connSub L)).log L.length
    (wsRun cap f evs (connSub L)).pos (wsRun cap f evs (connSub L)).log.length h.2.2
  rwa [List.take_length] at h2

/-- Claim C9: startup fails immediately — the `expect("Invalid host
given")` panic — exactly when the assembled listen address does not parse,
i.e. when the `PORT` environment variable holds anything but a decimal
number below 65536; with `PORT` unset the default `0.0.0.0:7070` parses and
the server proceeds to listen. -/
theorem C9_invalid_address_fatal :
    startup none = .listening 7070 ∧
    (∀ s n, decToNat? s = some n → n < 65536 → startup (some s) = .listening n) ∧
    (∀ s, decToNat? s = none → startup (some s) = .panicked "Invalid host given") ∧
    (∀ s n, decToNat? s = some n → 65536 ≤ n →
      startup (some s) = .panicked "Invalid host given") := by
  refine ⟨rfl, ?_, ?_, ?_⟩
  · intro s n h1 h2
    simp only [startup, get_address, parseAddr_assembled, parsePort, h1]
    rw [if_pos h2]
  · intro s h1
    simp only [startup, get_address, parseAddr_assembled, parsePort, h1]
  · intro s n h1 h2
    simp only [startup, get_address, parseAddr_assembled, parsePort, h1]
    rw [if_neg (by omega)]

/-- Witness for C9: a numeric port is accepted, a non-numeric and an
out-of-range one each panic at startup. -/
theorem C9_invalid_address_fatal_witness :
    startup (some "8080") = .listening 8080 ∧
    startup (some "abc") = .panicked "Invalid host given" ∧
    startup (some "70000") = .panicked "Invalid host given" :=
  ⟨C9_invalid_address_fatal.2.1 "8080" 8080 (by decide) (by decide),
   C9_invalid_address_fatal.2.2.1 "abc" (by decide),
   C9_invalid_address_fatal.2.2.2 "70000" 70000 (by decide) (by decide)⟩
